import Mathlib

/-
Verification development for the 2D periodic table-based interpolation
kernels of irt/nufft/table/interp2_table1_for.cpp.

Modelling conventions:
* C `double` values are modelled as rationals (ℚ); C `int` values as ℤ
  (loop counters and array positions as ℕ where they are nonnegative).
* Caller-supplied arrays are modelled as total functions from their index
  type; the separate question of which indices are actually read is
  tracked explicitly (see `accessedR`).
* `floor` on double is `Int.floor` on ℚ.  For the expression
  `floor(k / (double) K)` with 32-bit ints and K > 0 the double division
  is exact enough that the C result equals ⌊k/K⌋, which is what the
  embedding uses; for K = 0 the C expression is undefined behaviour and
  the embedding's value (division by zero yields 0 in ℚ) is only ever
  used in a statement whose conclusion does not depend on that value.
* The helpers `iround` and `mymod` come from the header "def,table2.h",
  which is not part of the sources examined; they are modelled from the
  spec (see their doc comments).
-/

namespace Interp2Table

/-- Modelled from the spec: `iround` from the missing header "def,table2.h".
Round to the nearest integer, ties away from zero. -/
def iround (p : ℚ) : ℤ := if 0 ≤ p then ⌊p + 1/2⌋ else -⌊-p + 1/2⌋

/-- The wrap count computed inline by the real-table evaluators:
`wrap = floor(k / (double) K)` (interp2_table1_for.cpp lines 187, 204,
281, 300). -/
def wrapOf (k K : ℤ) : ℤ := ⌊(k : ℚ) / (K : ℚ)⌋

/-- The periodic index computed inline by the real-table evaluators:
`kmod = k - K * wrap` (lines 188, 205, 282, 301). -/
def kmodOf (k K : ℤ) : ℤ := k - K * wrapOf k K

/-- Modelled from the spec: `mymod` from the missing header "def,table2.h",
used by the complex evaluator (lines 93, 105).  Per spec section 4.1 it
returns the representative of k modulo K lying in [0, K), with floor
semantics for the subtracted number of periods. -/
def mymod (k K : ℤ) : ℤ := k - K * ⌊(k : ℚ) / (K : ℚ)⌋

/-- Table re-centering offset `ncenter = floor(J * L / 2.)`
(lines 50, 55, 165, 169, 257, 261). -/
def ncenter (J L : ℤ) : ℤ := ⌊((J * L : ℤ) : ℚ) / 2⌋

/-- Starting integer neighbor `1 + floor(t - J / 2.)`
(lines 85, 86, 180, 181, 272, 273). -/
def koff (t : ℚ) (J : ℤ) : ℤ := 1 + ⌊t - (J : ℚ) / 2⌋

/-- Conditional sign flip `if (flip && (wrap % 2)) coef = -coef`
(lines 196-197, 209-210, 290-291, 305-306).  C `%` here is truncated
remainder, which is nonzero exactly when the Euclidean remainder modulo 2
is nonzero, i.e. when `wrap` is odd. -/
def flipCoef (flip : Bool) (wrap : ℤ) (c : ℚ) : ℚ :=
  if flip ∧ wrap % 2 ≠ 0 then -c else c

/-- 0th-order table lookup: value of the re-centered table at `iround p`
(lines 90-91, 185-186); `h` is the table as laid out in memory and `nc`
the re-centering pointer shift applied once per call. -/
def weight0 (h : ℤ → ℚ) (nc : ℤ) (p : ℚ) : ℚ := h (nc + iround p)

/-- 1st-order table lookup: `n = floor(p)`, `alf = p - n`,
`(1-alf)*h[n] + alf*h[n+1]` on the re-centered table (lines 276-280,
295-299). -/
def weight1 (h : ℤ → ℚ) (nc : ℤ) (p : ℚ) : ℚ :=
  (1 - (p - (⌊p⌋ : ℚ))) * h (nc + ⌊p⌋) + (p - (⌊p⌋ : ℚ)) * h (nc + ⌊p⌋ + 1)

/-- Complex product on pairs (re, im), the multiply pattern of lines
109-110 and 114-115. -/
def cmul (a b : ℚ × ℚ) : ℚ × ℚ :=
  (a.1 * b.1 - a.2 * b.2, a.1 * b.2 + a.2 * b.1)

/-- Scaling of a pair (re, im) by a real weight, the multiply pattern of
lines 214-215 and 219-220. -/
def smulp (a : ℚ) (v : ℚ × ℚ) : ℚ × ℚ := (a * v.1, a * v.2)

end Interp2Table

namespace Interp2Table

/-- One iteration of the inner (axis-1) loop of
`interp2_table0_complex_per` (lines 100-111): the contribution added to
(sum1r, sum1i) at inner offset `jj1`. -/
def term0C (r_ck i_ck : ℤ → ℚ) (K1 : ℤ) (r_h1 i_h1 : ℤ → ℚ)
    (J1 L1 : ℤ) (t1 : ℚ) (k12mod : ℤ) (jj1 : ℕ) : ℚ × ℚ :=
  let k1 : ℤ := koff t1 J1 + (jj1 : ℤ)
  let p1 : ℚ := (t1 - (k1 : ℚ)) * (L1 : ℚ)
  let coef1r := weight0 r_h1 (ncenter J1 L1) p1
  let coef1i := weight0 i_h1 (ncenter J1 L1) p1
  let kk := k12mod + mymod k1 K1
  (coef1r * r_ck kk - coef1i * i_ck kk,
   coef1r * i_ck kk + coef1i * r_ck kk)

/-- The inner (axis-1) loop of `interp2_table0_complex_per`
(lines 96-111), folding the per-iteration contributions into
(sum1r, sum1i) starting from (0, 0). -/
def sum1C (r_ck i_ck : ℤ → ℚ) (K1 : ℤ) (r_h1 i_h1 : ℤ → ℚ)
    (J1 L1 : ℤ) (t1 : ℚ) (k12mod : ℤ) : ℚ × ℚ :=
  (List.range J1.toNat).foldl
    (fun s jj1 => (s.1 + (term0C r_ck i_ck K1 r_h1 i_h1 J1 L1 t1 k12mod jj1).1,
                   s.2 + (term0C r_ck i_ck K1 r_h1 i_h1 J1 L1 t1 k12mod jj1).2))
    (0, 0)

/-- One iteration of the outer (axis-2) loop of
`interp2_table0_complex_per` (lines 88-116): the contribution added to
(sum2r, sum2i) at outer offset `jj2`. -/
def term0Cout (r_ck i_ck : ℤ → ℚ) (K1 K2 : ℤ) (r_h1 i_h1 r_h2 i_h2 : ℤ → ℚ)
    (J1 J2 L1 L2 : ℤ) (t1 t2 : ℚ) (jj2 : ℕ) : ℚ × ℚ :=
  let k2 : ℤ := koff t2 J2 + (jj2 : ℤ)
  let p2 : ℚ := (t2 - (k2 : ℚ)) * (L2 : ℚ)
  let coef2r := weight0 r_h2 (ncenter J2 L2) p2
  let coef2i := weight0 i_h2 (ncenter J2 L2) p2
  let k12mod := mymod k2 K2 * K1
  let s1 := sum1C r_ck i_ck K1 r_h1 i_h1 J1 L1 t1 k12mod
  (coef2r * s1.1 - coef2i * s1.2,
   coef2r * s1.2 + coef2i * s1.1)

/-- Per-query-point body of `interp2_table0_complex_per` (lines 80-122):
the value (sum2r, sum2i) computed for one query point (t1, t2). -/
def point0C (r_ck i_ck : ℤ → ℚ) (K1 K2 : ℤ) (r_h1 i_h1 r_h2 i_h2 : ℤ → ℚ)
    (J1 J2 L1 L2 : ℤ) (t1 t2 : ℚ) : ℚ × ℚ :=
  (List.range J2.toNat).foldl
    (fun s jj2 =>
      (s.1 + (term0Cout r_ck i_ck K1 K2 r_h1 i_h1 r_h2 i_h2 J1 J2 L1 L2 t1 t2 jj2).1,
       s.2 + (term0Cout r_ck i_ck K1 K2 r_h1 i_h1 r_h2 i_h2 J1 J2 L1 L2 t1 t2 jj2).2))
    (0, 0)

/-- `interp2_table0_complex_per` (lines 26-134), sequential single-worker
semantics: the shared outputs are memset to zero over indices below M
(lines 60-61); the single worker is assigned every index below M, writes
each of them into its private buffer (lines 121-122), and the merge adds
that buffer in (lines 124-130).  Query point m reads t1 = p_tm[m] and
t2 = p_tm[M + m] (lines 80-81).  Indices at or above M keep the previous
buffer contents. -/
def interp2_table0_complex_per (r_ck i_ck : ℤ → ℚ) (K1 K2 : ℤ)
    (r_h1 i_h1 r_h2 i_h2 : ℤ → ℚ) (J1 J2 L1 L2 : ℤ)
    (p_tm : ℕ → ℚ) (M : ℕ) (r_fm i_fm : ℕ → ℚ) : (ℕ → ℚ) × (ℕ → ℚ) :=
  (fun m => if m < M then
      (point0C r_ck i_ck K1 K2 r_h1 i_h1 r_h2 i_h2 J1 J2 L1 L2
        (p_tm m) (p_tm (M + m))).1
    else r_fm m,
   fun m => if m < M then
      (point0C r_ck i_ck K1 K2 r_h1 i_h1 r_h2 i_h2 J1 J2 L1 L2
        (p_tm m) (p_tm (M + m))).2
    else i_fm m)

/-- `interp2_table0_complex_per` with W ≥ 1 workers, as written
(lines 63-133): the omp for loop assigns each index m < M to worker
`assign m`; each worker's private buffers are obtained from malloc and
NOT initialized (lines 69-70), so at an index the worker was not assigned
they keep arbitrary initial contents `g_r w`, `g_i w`; the critical
section then adds every worker's full private buffer into the shared
output, which memset had zeroed (lines 60-61, 124-130). -/
def interp2_table0_complex_per_omp (W : ℕ) (assign : ℕ → Fin W)
    (g_r g_i : Fin W → ℕ → ℚ) (r_ck i_ck : ℤ → ℚ) (K1 K2 : ℤ)
    (r_h1 i_h1 r_h2 i_h2 : ℤ → ℚ) (J1 J2 L1 L2 : ℤ)
    (p_tm : ℕ → ℚ) (M : ℕ) (r_fm i_fm : ℕ → ℚ) : (ℕ → ℚ) × (ℕ → ℚ) :=
  (fun m => if m < M then
      ∑ w : Fin W, (if assign m = w then
        (point0C r_ck i_ck K1 K2 r_h1 i_h1 r_h2 i_h2 J1 J2 L1 L2
          (p_tm m) (p_tm (M + m))).1
      else g_r w m)
    else r_fm m,
   fun m => if m < M then
      ∑ w : Fin W, (if assign m = w then
        (point0C r_ck i_ck K1 K2 r_h1 i_h1 r_h2 i_h2 J1 J2 L1 L2
          (p_tm m) (p_tm (M + m))).2
      else g_i w m)
    else i_fm m)

/-- One iteration of the inner (axis-1) loop of
`interp2_table0_real_per` (lines 200-216): the contribution added to
(sum1r, sum1i) at inner offset `jj1`.  `flip1` models the Provide_flip
compilation flag together with the flip1 argument; with `flip1 = false`
this is the code as compiled without Provide_flip. -/
def term0R (r_ck i_ck : ℤ → ℚ) (K1 : ℤ) (r_h1 : ℤ → ℚ) (flip1 : Bool)
    (J1 L1 : ℤ) (t1 : ℚ) (k12mod : ℤ) (jj1 : ℕ) : ℚ × ℚ :=
  let k1 : ℤ := koff t1 J1 + (jj1 : ℤ)
  let p1 : ℚ := (t1 - (k1 : ℚ)) * (L1 : ℚ)
  let coef1r := flipCoef flip1 (wrapOf k1 K1) (weight0 r_h1 (ncenter J1 L1) p1)
  let kk := k12mod + kmodOf k1 K1
  (coef1r * r_ck kk, coef1r * i_ck kk)

/-- The inner (axis-1) loop of `interp2_table0_real_per`
(lines 191-216). -/
def sum1R (r_ck i_ck : ℤ → ℚ) (K1 : ℤ) (r_h1 : ℤ → ℚ) (flip1 : Bool)
    (J1 L1 : ℤ) (t1 : ℚ) (k12mod : ℤ) : ℚ × ℚ :=
  (List.range J1.toNat).foldl
    (fun s jj1 => (s.1 + (term0R r_ck i_ck K1 r_h1 flip1 J1 L1 t1 k12mod jj1).1,
                   s.2 + (term0R r_ck i_ck K1 r_h1 flip1 J1 L1 t1 k12mod jj1).2))
    (0, 0)

/-- One iteration of the outer (axis-2) loop of `interp2_table0_real_per`
(lines 183-221). -/
def term0Rout (r_ck i_ck : ℤ → ℚ) (K1 K2 : ℤ) (r_h1 r_h2 : ℤ → ℚ)
    (flip1 flip2 : Bool) (J1 J2 L1 L2 : ℤ) (t1 t2 : ℚ) (jj2 : ℕ) : ℚ × ℚ :=
  let k2 : ℤ := koff t2 J2 + (jj2 : ℤ)
  let p2 : ℚ := (t2 - (k2 : ℚ)) * (L2 : ℚ)
  let coef2r := flipCoef flip2 (wrapOf k2 K2) (weight0 r_h2 (ncenter J2 L2) p2)
  let k12mod := kmodOf k2 K2 * K1
  let s1 := sum1R r_ck i_ck K1 r_h1 flip1 J1 L1 t1 k12mod
  (coef2r * s1.1, coef2r * s1.2)

/-- Per-query-point body of `interp2_table0_real_per` (lines 174-225). -/
def point0R (r_ck i_ck : ℤ → ℚ) (K1 K2 : ℤ) (r_h1 r_h2 : ℤ → ℚ)
    (flip1 flip2 : Bool) (J1 J2 L1 L2 : ℤ) (t1 t2 : ℚ) : ℚ × ℚ :=
  (List.range J2.toNat).foldl
    (fun s jj2 =>
      (s.1 + (term0Rout r_ck i_ck K1 K2 r_h1 r_h2 flip1 flip2 J1 J2 L1 L2 t1 t2 jj2).1,
       s.2 + (term0Rout r_ck i_ck K1 K2 r_h1 r_h2 flip1 flip2 J1 J2 L1 L2 t1 t2 jj2).2))
    (0, 0)

/-- `interp2_table0_real_per` (lines 141-226): sequential; query point m
reads t1 = p_tm[m] and t2 = p_tm[M + m] (the walking pointer of lines
176-177 visits exactly these positions), writes output slot m for every
m < M (lines 223-224) and leaves other slots untouched. -/
def interp2_table0_real_per (r_ck i_ck : ℤ → ℚ) (K1 K2 : ℤ)
    (r_h1 r_h2 : ℤ → ℚ) (flip1 flip2 : Bool) (J1 J2 L1 L2 : ℤ)
    (p_tm : ℕ → ℚ) (M : ℕ) (r_fm i_fm : ℕ → ℚ) : (ℕ → ℚ) × (ℕ → ℚ) :=
  (fun m => if m < M then
      (point0R r_ck i_ck K1 K2 r_h1 r_h2 flip1 flip2 J1 J2 L1 L2
        (p_tm m) (p_tm (M + m))).1
    else r_fm m,
   fun m => if m < M then
      (point0R r_ck i_ck K1 K2 r_h1 r_h2 flip1 flip2 J1 J2 L1 L2
        (p_tm m) (p_tm (M + m))).2
    else i_fm m)

/-- One iteration of the inner (axis-1) loop of
`interp2_table1_real_per` (lines 294-312): 1st-order (linear) table
lookup. -/
def term1R (r_ck i_ck : ℤ → ℚ) (K1 : ℤ) (r_h1 : ℤ → ℚ) (flip1 : Bool)
    (J1 L1 : ℤ) (t1 : ℚ) (k12mod : ℤ) (jj1 : ℕ) : ℚ × ℚ :=
  let k1 : ℤ := koff t1 J1 + (jj1 : ℤ)
  let p1 : ℚ := (t1 - (k1 : ℚ)) * (L1 : ℚ)
  let coef1r := flipCoef flip1 (wrapOf k1 K1) (weight1 r_h1 (ncenter J1 L1) p1)
  let kk := k12mod + kmodOf k1 K1
  (coef1r * r_ck kk, coef1r * i_ck kk)

/-- The inner (axis-1) loop of `interp2_table1_real_per`
(lines 285-312). -/
def sum1R1 (r_ck i_ck : ℤ → ℚ) (K1 : ℤ) (r_h1 : ℤ → ℚ) (flip1 : Bool)
    (J1 L1 : ℤ) (t1 : ℚ) (k12mod : ℤ) : ℚ × ℚ :=
  (List.range J1.toNat).foldl
    (fun s jj1 => (s.1 + (term1R r_ck i_ck K1 r_h1 flip1 J1 L1 t1 k12mod jj1).1,
                   s.2 + (term1R r_ck i_ck K1 r_h1 flip1 J1 L1 t1 k12mod jj1).2))
    (0, 0)

/-- One iteration of the outer (axis-2) loop of `interp2_table1_real_per`
(lines 275-317). -/
def term1Rout (r_ck i_ck : ℤ → ℚ) (K1 K2 : ℤ) (r_h1 r_h2 : ℤ → ℚ)
    (flip1 flip2 : Bool) (J1 J2 L1 L2 : ℤ) (t1 t2 : ℚ) (jj2 : ℕ) : ℚ × ℚ :=
  let k2 : ℤ := koff t2 J2 + (jj2 : ℤ)
  let p2 : ℚ := (t2 - (k2 : ℚ)) * (L2 : ℚ)
  let coef2r := flipCoef flip2 (wrapOf k2 K2) (weight1 r_h2 (ncenter J2 L2) p2)
  let k12mod := kmodOf k2 K2 * K1
  let s1 := sum1R1 r_ck i_ck K1 r_h1 flip1 J1 L1 t1 k12mod
  (coef2r * s1.1, coef2r * s1.2)

/-- Per-query-point body of `interp2_table1_real_per` (lines 266-321). -/
def point1R (r_ck i_ck : ℤ → ℚ) (K1 K2 : ℤ) (r_h1 r_h2 : ℤ → ℚ)
    (flip1 flip2 : Bool) (J1 J2 L1 L2 : ℤ) (t1 t2 : ℚ) : ℚ × ℚ :=
  (List.range J2.toNat).foldl
    (fun s jj2 =>
      (s.1 + (term1Rout r_ck i_ck K1 K2 r_h1 r_h2 flip1 flip2 J1 J2 L1 L2 t1 t2 jj2).1,
       s.2 + (term1Rout r_ck i_ck K1 K2 r_h1 r_h2 flip1 flip2 J1 J2 L1 L2 t1 t2 jj2).2))
    (0, 0)

/-- `interp2_table1_real_per` (lines 233-322): sequential, same I/O
layout as the 0th-order real evaluator. -/
def interp2_table1_real_per (r_ck i_ck : ℤ → ℚ) (K1 K2 : ℤ)
    (r_h1 r_h2 : ℤ → ℚ) (flip1 flip2 : Bool) (J1 J2 L1 L2 : ℤ)
    (p_tm : ℕ → ℚ) (M : ℕ) (r_fm i_fm : ℕ → ℚ) : (ℕ → ℚ) × (ℕ → ℚ) :=
  (fun m => if m < M then
      (point1R r_ck i_ck K1 K2 r_h1 r_h2 flip1 flip2 J1 J2 L1 L2
        (p_tm m) (p_tm (M + m))).1
    else r_fm m,
   fun m => if m < M then
      (point1R r_ck i_ck K1 K2 r_h1 r_h2 flip1 flip2 J1 J2 L1 L2
        (p_tm m) (p_tm (M + m))).2
    else i_fm m)

/-- The linear grid indices `kk = k12mod + k1mod` at which the evaluators
read r_ck and i_ck (lines 106, 206, 302 and the reads at lines 109-110,
214-215, 310-311), listed in loop order.  They depend only on the window
geometry and the query points, not on the coefficient data; the
complex-table evaluator produces the same indices because `mymod`
coincides with `kmodOf`. -/
def accessedR (K1 K2 J1 J2 : ℤ) (p_tm : ℕ → ℚ) (M : ℕ) : List ℤ :=
  (List.range M).flatMap (fun mm =>
    (List.range J2.toNat).flatMap (fun jj2 =>
      (List.range J1.toNat).map (fun jj1 =>
        kmodOf (koff (p_tm (M + mm)) J2 + (jj2 : ℤ)) K2 * K1 +
          kmodOf (koff (p_tm mm) J1 + (jj1 : ℤ)) K1)))

end Interp2Table

namespace Interp2Table

/-- An accumulation loop that adds a pair-valued term per iteration,
started at (a, b), computes the pair of the componentwise sums. -/
theorem foldl_pair (F : ℕ → ℚ × ℚ) (n : ℕ) (a b : ℚ) :
    (List.range n).foldl (fun s jj => (s.1 + (F jj).1, s.2 + (F jj).2)) (a, b)
      = (a + ∑ jj ∈ Finset.range n, (F jj).1,
         b + ∑ jj ∈ Finset.range n, (F jj).2) := by
  induction n with
  | zero => simp
  | succ n ih =>
      rw [List.range_succ, List.foldl_append, ih]
      simp [Finset.sum_range_succ, add_assoc]

/-- The floor-based wrap count agrees with Euclidean division for
positive periods. -/
theorem wrapOf_eq_ediv (k K : ℤ) (hK : 0 < K) : wrapOf k K = k / K := by
  unfold wrapOf
  have h1 : (K : ℚ) = ((K.toNat : ℕ) : ℚ) := by
    exact_mod_cast congrArg (fun z : ℤ => (z : ℚ)) (Int.toNat_of_nonneg hK.le).symm
  rw [h1, Rat.floor_intCast_div_natCast, Int.toNat_of_nonneg hK.le]

/-- The inline periodic index is the Euclidean remainder for positive
periods. -/
theorem kmodOf_eq_emod (k K : ℤ) (hK : 0 < K) : kmodOf k K = k % K := by
  unfold kmodOf
  rw [wrapOf_eq_ediv k K hK, Int.emod_def]

theorem mymod_eq_kmodOf (k K : ℤ) : mymod k K = kmodOf k K := rfl

theorem sum1C_eq (r_ck i_ck : ℤ → ℚ) (K1 : ℤ) (r_h1 i_h1 : ℤ → ℚ)
    (J1 L1 : ℤ) (t1 : ℚ) (k12mod : ℤ) :
    sum1C r_ck i_ck K1 r_h1 i_h1 J1 L1 t1 k12mod
      = (∑ jj1 ∈ Finset.range J1.toNat,
           (term0C r_ck i_ck K1 r_h1 i_h1 J1 L1 t1 k12mod jj1).1,
         ∑ jj1 ∈ Finset.range J1.toNat,
           (term0C r_ck i_ck K1 r_h1 i_h1 J1 L1 t1 k12mod jj1).2) := by
  unfold sum1C
  rw [foldl_pair]
  simp

theorem point0C_eq (r_ck i_ck : ℤ → ℚ) (K1 K2 : ℤ)
    (r_h1 i_h1 r_h2 i_h2 : ℤ → ℚ) (J1 J2 L1 L2 : ℤ) (t1 t2 : ℚ) :
    point0C r_ck i_ck K1 K2 r_h1 i_h1 r_h2 i_h2 J1 J2 L1 L2 t1 t2
      = (∑ jj2 ∈ Finset.range J2.toNat,
           (term0Cout r_ck i_ck K1 K2 r_h1 i_h1 r_h2 i_h2 J1 J2 L1 L2 t1 t2 jj2).1,
         ∑ jj2 ∈ Finset.range J2.toNat,
           (term0Cout r_ck i_ck K1 K2 r_h1 i_h1 r_h2 i_h2 J1 J2 L1 L2 t1 t2 jj2).2) := by
  unfold point0C
  rw [foldl_pair]
  simp

theorem sum1R_eq (r_ck i_ck : ℤ → ℚ) (K1 : ℤ) (r_h1 : ℤ → ℚ) (flip1 : Bool)
    (J1 L1 : ℤ) (t1 : ℚ) (k12mod : ℤ) :
    sum1R r_ck i_ck K1 r_h1 flip1 J1 L1 t1 k12mod
      = (∑ jj1 ∈ Finset.range J1.toNat,
           (term0R r_ck i_ck K1 r_h1 flip1 J1 L1 t1 k12mod jj1).1,
         ∑ jj1 ∈ Finset.range J1.toNat,
           (term0R r_ck i_ck K1 r_h1 flip1 J1 L1 t1 k12mod jj1).2) := by
  unfold sum1R
  rw [foldl_pair]
  simp

theorem point0R_eq (r_ck i_ck : ℤ → ℚ) (K1 K2 : ℤ) (r_h1 r_h2 : ℤ → ℚ)
    (flip1 flip2 : Bool) (J1 J2 L1 L2 : ℤ) (t1 t2 : ℚ) :
    point0R r_ck i_ck K1 K2 r_h1 r_h2 flip1 flip2 J1 J2 L1 L2 t1 t2
      = (∑ jj2 ∈ Finset.range J2.toNat,
           (term0Rout r_ck i_ck K1 K2 r_h1 r_h2 flip1 flip2 J1 J2 L1 L2 t1 t2 jj2).1,
         ∑ jj2 ∈ Finset.range J2.toNat,
           (term0Rout r_ck i_ck K1 K2 r_h1 r_h2 flip1 flip2 J1 J2 L1 L2 t1 t2 jj2).2) := by
  unfold point0R
  rw [foldl_pair]
  simp

theorem sum1R1_eq (r_ck i_ck : ℤ → ℚ) (K1 : ℤ) (r_h1 : ℤ → ℚ) (flip1 : Bool)
    (J1 L1 : ℤ) (t1 : ℚ) (k12mod : ℤ) :
    sum1R1 r_ck i_ck K1 r_h1 flip1 J1 L1 t1 k12mod
      = (∑ jj1 ∈ Finset.range J1.toNat,
           (term1R r_ck i_ck K1 r_h1 flip1 J1 L1 t1 k12mod jj1).1,
         ∑ jj1 ∈ Finset.range J1.toNat,
           (term1R r_ck i_ck K1 r_h1 flip1 J1 L1 t1 k12mod jj1).2) := by
  unfold sum1R1
  rw [foldl_pair]
  simp

theorem point1R_eq (r_ck i_ck : ℤ → ℚ) (K1 K2 : ℤ) (r_h1 r_h2 : ℤ → ℚ)
    (flip1 flip2 : Bool) (J1 J2 L1 L2 : ℤ) (t1 t2 : ℚ) :
    point1R r_ck i_ck K1 K2 r_h1 r_h2 flip1 flip2 J1 J2 L1 L2 t1 t2
      = (∑ jj2 ∈ Finset.range J2.toNat,
           (term1Rout r_ck i_ck K1 K2 r_h1 r_h2 flip1 flip2 J1 J2 L1 L2 t1 t2 jj2).1,
         ∑ jj2 ∈ Finset.range J2.toNat,
           (term1Rout r_ck i_ck K1 K2 r_h1 r_h2 flip1 flip2 J1 J2 L1 L2 t1 t2 jj2).2) := by
  unfold point1R
  rw [foldl_pair]
  simp

theorem pair_sum (f : ℕ → ℚ × ℚ) (s : Finset ℕ) :
    (∑ j ∈ s, (f j).1, ∑ j ∈ s, (f j).2) = ∑ j ∈ s, f j := by
  refine Prod.ext ?_ ?_
  · rw [Prod.fst_sum]
  · rw [Prod.snd_sum]

theorem flipCoef_false (w : ℤ) (c : ℚ) : flipCoef false w c = c := by
  simp [flipCoef]

theorem term0C_eq_cmul (r_ck i_ck : ℤ → ℚ) (K1 : ℤ) (r_h1 i_h1 : ℤ → ℚ)
    (J1 L1 : ℤ) (t1 : ℚ) (k12mod : ℤ) (jj1 : ℕ) :
    term0C r_ck i_ck K1 r_h1 i_h1 J1 L1 t1 k12mod jj1
      = cmul
          (weight0 r_h1 (ncenter J1 L1)
             ((t1 - ((koff t1 J1 + (jj1 : ℤ) : ℤ) : ℚ)) * (L1 : ℚ)),
           weight0 i_h1 (ncenter J1 L1)
             ((t1 - ((koff t1 J1 + (jj1 : ℤ) : ℤ) : ℚ)) * (L1 : ℚ)))
          (r_ck (k12mod + mymod (koff t1 J1 + (jj1 : ℤ)) K1),
           i_ck (k12mod + mymod (koff t1 J1 + (jj1 : ℤ)) K1)) := rfl

theorem term0R_eq_smulp (r_ck i_ck : ℤ → ℚ) (K1 : ℤ) (r_h1 : ℤ → ℚ)
    (flip1 : Bool) (J1 L1 : ℤ) (t1 : ℚ) (k12mod : ℤ) (jj1 : ℕ) :
    term0R r_ck i_ck K1 r_h1 flip1 J1 L1 t1 k12mod jj1
      = smulp
          (flipCoef flip1 (wrapOf (koff t1 J1 + (jj1 : ℤ)) K1)
            (weight0 r_h1 (ncenter J1 L1)
              ((t1 - ((koff t1 J1 + (jj1 : ℤ) : ℤ) : ℚ)) * (L1 : ℚ))))
          (r_ck (k12mod + kmodOf (koff t1 J1 + (jj1 : ℤ)) K1),
           i_ck (k12mod + kmodOf (koff t1 J1 + (jj1 : ℤ)) K1)) := rfl

theorem term1R_eq_smulp (r_ck i_ck : ℤ → ℚ) (K1 : ℤ) (r_h1 : ℤ → ℚ)
    (flip1 : Bool) (J1 L1 : ℤ) (t1 : ℚ) (k12mod : ℤ) (jj1 : ℕ) :
    term1R r_ck i_ck K1 r_h1 flip1 J1 L1 t1 k12mod jj1
      = smulp
          (flipCoef flip1 (wrapOf (koff t1 J1 + (jj1 : ℤ)) K1)
            (weight1 r_h1 (ncenter J1 L1)
              ((t1 - ((koff t1 J1 + (jj1 : ℤ) : ℤ) : ℚ)) * (L1 : ℚ))))
          (r_ck (k12mod + kmodOf (koff t1 J1 + (jj1 : ℤ)) K1),
           i_ck (k12mod + kmodOf (koff t1 J1 + (jj1 : ℤ)) K1)) := rfl

/-- The outer complex term as a complex multiple of the inner double
sum. -/
theorem term0Cout_eq_cmul (r_ck i_ck : ℤ → ℚ) (K1 K2 : ℤ)
    (r_h1 i_h1 r_h2 i_h2 : ℤ → ℚ) (J1 J2 L1 L2 : ℤ) (t1 t2 : ℚ) (jj2 : ℕ) :
    term0Cout r_ck i_ck K1 K2 r_h1 i_h1 r_h2 i_h2 J1 J2 L1 L2 t1 t2 jj2
      = cmul
          (weight0 r_h2 (ncenter J2 L2)
             ((t2 - ((koff t2 J2 + (jj2 : ℤ) : ℤ) : ℚ)) * (L2 : ℚ)),
           weight0 i_h2 (ncenter J2 L2)
             ((t2 - ((koff t2 J2 + (jj2 : ℤ) : ℤ) : ℚ)) * (L2 : ℚ)))
          (∑ jj1 ∈ Finset.range J1.toNat,
            term0C r_ck i_ck K1 r_h1 i_h1 J1 L1 t1
              (mymod (koff t2 J2 + (jj2 : ℤ)) K2 * K1) jj1) := by
  have h : term0Cout r_ck i_ck K1 K2 r_h1 i_h1 r_h2 i_h2 J1 J2 L1 L2 t1 t2 jj2
      = cmul
          (weight0 r_h2 (ncenter J2 L2)
             ((t2 - ((koff t2 J2 + (jj2 : ℤ) : ℤ) : ℚ)) * (L2 : ℚ)),
           weight0 i_h2 (ncenter J2 L2)
             ((t2 - ((koff t2 J2 + (jj2 : ℤ) : ℤ) : ℚ)) * (L2 : ℚ)))
          (sum1C r_ck i_ck K1 r_h1 i_h1 J1 L1 t1
            (mymod (koff t2 J2 + (jj2 : ℤ)) K2 * K1)) := rfl
  rw [h, sum1C_eq, pair_sum]

/-- The outer real 0th-order term as a real multiple of the inner double
sum. -/
theorem term0Rout_eq_smulp (r_ck i_ck : ℤ → ℚ) (K1 K2 : ℤ)
    (r_h1 r_h2 : ℤ → ℚ) (flip1 flip2 : Bool) (J1 J2 L1 L2 : ℤ)
    (t1 t2 : ℚ) (jj2 : ℕ) :
    term0Rout r_ck i_ck K1 K2 r_h1 r_h2 flip1 flip2 J1 J2 L1 L2 t1 t2 jj2
      = smulp
          (flipCoef flip2 (wrapOf (koff t2 J2 + (jj2 : ℤ)) K2)
            (weight0 r_h2 (ncenter J2 L2)
              ((t2 - ((koff t2 J2 + (jj2 : ℤ) : ℤ) : ℚ)) * (L2 : ℚ))))
          (∑ jj1 ∈ Finset.range J1.toNat,
            term0R r_ck i_ck K1 r_h1 flip1 J1 L1 t1
              (kmodOf (koff t2 J2 + (jj2 : ℤ)) K2 * K1) jj1) := by
  have h : term0Rout r_ck i_ck K1 K2 r_h1 r_h2 flip1 flip2 J1 J2 L1 L2 t1 t2 jj2
      = smulp
          (flipCoef flip2 (wrapOf (koff t2 J2 + (jj2 : ℤ)) K2)
            (weight0 r_h2 (ncenter J2 L2)
              ((t2 - ((koff t2 J2 + (jj2 : ℤ) : ℤ) : ℚ)) * (L2 : ℚ))))
          (sum1R r_ck i_ck K1 r_h1 flip1 J1 L1 t1
            (kmodOf (koff t2 J2 + (jj2 : ℤ)) K2 * K1)) := rfl
  rw [h, sum1R_eq, pair_sum]

/-- The outer real 1st-order term as a real multiple of the inner double
sum. -/
theorem term1Rout_eq_smulp (r_ck i_ck : ℤ → ℚ) (K1 K2 : ℤ)
    (r_h1 r_h2 : ℤ → ℚ) (flip1 flip2 : Bool) (J1 J2 L1 L2 : ℤ)
    (t1 t2 : ℚ) (jj2 : ℕ) :
    term1Rout r_ck i_ck K1 K2 r_h1 r_h2 flip1 flip2 J1 J2 L1 L2 t1 t2 jj2
      = smulp
          (flipCoef flip2 (wrapOf (koff t2 J2 + (jj2 : ℤ)) K2)
            (weight1 r_h2 (ncenter J2 L2)
              ((t2 - ((koff t2 J2 + (jj2 : ℤ) : ℤ) : ℚ)) * (L2 : ℚ))))
          (∑ jj1 ∈ Finset.range J1.toNat,
            term1R r_ck i_ck K1 r_h1 flip1 J1 L1 t1
              (kmodOf (koff t2 J2 + (jj2 : ℤ)) K2 * K1) jj1) := by
  have h : term1Rout r_ck i_ck K1 K2 r_h1 r_h2 flip1 flip2 J1 J2 L1 L2 t1 t2 jj2
      = smulp
          (flipCoef flip2 (wrapOf (koff t2 J2 + (jj2 : ℤ)) K2)
            (weight1 r_h2 (ncenter J2 L2)
              ((t2 - ((koff t2 J2 + (jj2 : ℤ) : ℤ) : ℚ)) * (L2 : ℚ))))
          (sum1R1 r_ck i_ck K1 r_h1 flip1 J1 L1 t1
            (kmodOf (koff t2 J2 + (jj2 : ℤ)) K2 * K1)) := rfl
  rw [h, sum1R1_eq, pair_sum]

/-- The per-point body of the complex evaluator as a nested double sum. -/
theorem point0C_eq_double_sum (r_ck i_ck : ℤ → ℚ) (K1 K2 : ℤ)
    (r_h1 i_h1 r_h2 i_h2 : ℤ → ℚ) (J1 J2 L1 L2 : ℤ) (t1 t2 : ℚ) :
    point0C r_ck i_ck K1 K2 r_h1 i_h1 r_h2 i_h2 J1 J2 L1 L2 t1 t2
      = ∑ jj2 ∈ Finset.range J2.toNat,
          cmul
            (weight0 r_h2 (ncenter J2 L2)
               ((t2 - ((koff t2 J2 + (jj2 : ℤ) : ℤ) : ℚ)) * (L2 : ℚ)),
             weight0 i_h2 (ncenter J2 L2)
               ((t2 - ((koff t2 J2 + (jj2 : ℤ) : ℤ) : ℚ)) * (L2 : ℚ)))
            (∑ jj1 ∈ Finset.range J1.toNat,
              cmul
                (weight0 r_h1 (ncenter J1 L1)
                   ((t1 - ((koff t1 J1 + (jj1 : ℤ) : ℤ) : ℚ)) * (L1 : ℚ)),
                 weight0 i_h1 (ncenter J1 L1)
                   ((t1 - ((koff t1 J1 + (jj1 : ℤ) : ℤ) : ℚ)) * (L1 : ℚ)))
                (r_ck (mymod (koff t2 J2 + (jj2 : ℤ)) K2 * K1 +
                         mymod (koff t1 J1 + (jj1 : ℤ)) K1),
                 i_ck (mymod (koff t2 J2 + (jj2 : ℤ)) K2 * K1 +
                         mymod (koff t1 J1 + (jj1 : ℤ)) K1))) := by
  rw [point0C_eq, pair_sum]
  refine Finset.sum_congr rfl ?_
  intro jj2 _
  rw [term0Cout_eq_cmul]
  refine congrArg _ ?_
  refine Finset.sum_congr rfl ?_
  intro jj1 _
  rw [term0C_eq_cmul]

/-- The per-point body of the real 0th-order evaluator as a nested
double sum. -/
theorem point0R_eq_double_sum (r_ck i_ck : ℤ → ℚ) (K1 K2 : ℤ)
    (r_h1 r_h2 : ℤ → ℚ) (flip1 flip2 : Bool) (J1 J2 L1 L2 : ℤ)
    (t1 t2 : ℚ) :
    point0R r_ck i_ck K1 K2 r_h1 r_h2 flip1 flip2 J1 J2 L1 L2 t1 t2
      = ∑ jj2 ∈ Finset.range J2.toNat,
          smulp
            (flipCoef flip2 (wrapOf (koff t2 J2 + (jj2 : ℤ)) K2)
              (weight0 r_h2 (ncenter J2 L2)
                ((t2 - ((koff t2 J2 + (jj2 : ℤ) : ℤ) : ℚ)) * (L2 : ℚ))))
            (∑ jj1 ∈ Finset.range J1.toNat,
              smulp
                (flipCoef flip1 (wrapOf (koff t1 J1 + (jj1 : ℤ)) K1)
                  (weight0 r_h1 (ncenter J1 L1)
                    ((t1 - ((koff t1 J1 + (jj1 : ℤ) : ℤ) : ℚ)) * (L1 : ℚ))))
                (r_ck (kmodOf (koff t2 J2 + (jj2 : ℤ)) K2 * K1 +
                         kmodOf (koff t1 J1 + (jj1 : ℤ)) K1),
                 i_ck (kmodOf (koff t2 J2 + (jj2 : ℤ)) K2 * K1 +
                         kmodOf (koff t1 J1 + (jj1 : ℤ)) K1))) := by
  rw [point0R_eq, pair_sum]
  refine Finset.sum_congr rfl ?_
  intro jj2 _
  rw [term0Rout_eq_smulp]
  refine congrArg _ ?_
  refine Finset.sum_congr rfl ?_
  intro jj1 _
  rw [term0R_eq_smulp]

/-- The per-point body of the real 1st-order evaluator as a nested
double sum. -/
theorem point1R_eq_double_sum (r_ck i_ck : ℤ → ℚ) (K1 K2 : ℤ)
    (r_h1 r_h2 : ℤ → ℚ) (flip1 flip2 : Bool) (J1 J2 L1 L2 : ℤ)
    (t1 t2 : ℚ) :
    point1R r_ck i_ck K1 K2 r_h1 r_h2 flip1 flip2 J1 J2 L1 L2 t1 t2
      = ∑ jj2 ∈ Finset.range J2.toNat,
          smulp
            (flipCoef flip2 (wrapOf (koff t2 J2 + (jj2 : ℤ)) K2)
              (weight1 r_h2 (ncenter J2 L2)
                ((t2 - ((koff t2 J2 + (jj2 : ℤ) : ℤ) : ℚ)) * (L2 : ℚ))))
            (∑ jj1 ∈ Finset.range J1.toNat,
              smulp
                (flipCoef flip1 (wrapOf (koff t1 J1 + (jj1 : ℤ)) K1)
                  (weight1 r_h1 (ncenter J1 L1)
                    ((t1 - ((koff t1 J1 + (jj1 : ℤ) : ℤ) : ℚ)) * (L1 : ℚ))))
                (r_ck (kmodOf (koff t2 J2 + (jj2 : ℤ)) K2 * K1 +
                         kmodOf (koff t1 J1 + (jj1 : ℤ)) K1),
                 i_ck (kmodOf (koff t2 J2 + (jj2 : ℤ)) K2 * K1 +
                         kmodOf (koff t1 J1 + (jj1 : ℤ)) K1))) := by
  rw [point1R_eq, pair_sum]
  refine Finset.sum_congr rfl ?_
  intro jj2 _
  rw [term1Rout_eq_smulp]
  refine congrArg _ ?_
  refine Finset.sum_congr rfl ?_
  intro jj1 _
  rw [term1R_eq_smulp]

/-- C1: for every query point (t1, t2) = (p_tm m, p_tm (M + m)) with
m < M, each evaluator computes the m-th output as the separable double
sum over jj2 < J2 and jj1 < J1, with per-axis starting neighbor
k_start = koff t J = 1 + floor(t - J/2), axis weights looked up from the
re-centered tables at fractional offsets (t - k)*L, grid coefficient
read at the periodic-wrapped linear index kk = k2mod*K1 + k1mod, the
inner sum scaled by the axis-2 weight, and the total written to output
slot m.  Stated for the complex-table evaluator (complex multiplies) and
the real-table 0th-order evaluator (plain scalar multiplies into both
components). -/
theorem claim1_separable_double_sum (r_ck i_ck : ℤ → ℚ) (K1 K2 : ℤ)
    (r_h1 i_h1 r_h2 i_h2 : ℤ → ℚ) (J1 J2 L1 L2 : ℤ) (p_tm : ℕ → ℚ)
    (M : ℕ) (r_fm i_fm : ℕ → ℚ) (m : ℕ) (hm : m < M) :
    (((interp2_table0_complex_per r_ck i_ck K1 K2 r_h1 i_h1 r_h2 i_h2
          J1 J2 L1 L2 p_tm M r_fm i_fm).1 m,
      (interp2_table0_complex_per r_ck i_ck K1 K2 r_h1 i_h1 r_h2 i_h2
          J1 J2 L1 L2 p_tm M r_fm i_fm).2 m)
        = ∑ jj2 ∈ Finset.range J2.toNat,
            cmul
              (weight0 r_h2 (ncenter J2 L2)
                 ((p_tm (M + m) -
                    ((koff (p_tm (M + m)) J2 + (jj2 : ℤ) : ℤ) : ℚ)) * (L2 : ℚ)),
               weight0 i_h2 (ncenter J2 L2)
                 ((p_tm (M + m) -
                    ((koff (p_tm (M + m)) J2 + (jj2 : ℤ) : ℤ) : ℚ)) * (L2 : ℚ)))
              (∑ jj1 ∈ Finset.range J1.toNat,
                cmul
                  (weight0 r_h1 (ncenter J1 L1)
                     ((p_tm m -
                        ((koff (p_tm m) J1 + (jj1 : ℤ) : ℤ) : ℚ)) * (L1 : ℚ)),
                   weight0 i_h1 (ncenter J1 L1)
                     ((p_tm m -
                        ((koff (p_tm m) J1 + (jj1 : ℤ) : ℤ) : ℚ)) * (L1 : ℚ)))
                  (r_ck (mymod (koff (p_tm (M + m)) J2 + (jj2 : ℤ)) K2 * K1 +
                           mymod (koff (p_tm m) J1 + (jj1 : ℤ)) K1),
                   i_ck (mymod (koff (p_tm (M + m)) J2 + (jj2 : ℤ)) K2 * K1 +
                           mymod (koff (p_tm m) J1 + (jj1 : ℤ)) K1))))
    ∧ (((interp2_table0_real_per r_ck i_ck K1 K2 r_h1 r_h2 false false
          J1 J2 L1 L2 p_tm M r_fm i_fm).1 m,
        (interp2_table0_real_per r_ck i_ck K1 K2 r_h1 r_h2 false false
          J1 J2 L1 L2 p_tm M r_fm i_fm).2 m)
        = ∑ jj2 ∈ Finset.range J2.toNat,
            smulp
              (weight0 r_h2 (ncenter J2 L2)
                ((p_tm (M + m) -
                   ((koff (p_tm (M + m)) J2 + (jj2 : ℤ) : ℤ) : ℚ)) * (L2 : ℚ)))
              (∑ jj1 ∈ Finset.range J1.toNat,
                smulp
                  (weight0 r_h1 (ncenter J1 L1)
                    ((p_tm m -
                       ((koff (p_tm m) J1 + (jj1 : ℤ) : ℤ) : ℚ)) * (L1 : ℚ)))
                  (r_ck (kmodOf (koff (p_tm (M + m)) J2 + (jj2 : ℤ)) K2 * K1 +
                           kmodOf (koff (p_tm m) J1 + (jj1 : ℤ)) K1),
                   i_ck (kmodOf (koff (p_tm (M + m)) J2 + (jj2 : ℤ)) K2 * K1 +
                           kmodOf (koff (p_tm m) J1 + (jj1 : ℤ)) K1)))) := by
  constructor
  · simp only [interp2_table0_complex_per, if_pos hm]
    rw [Prod.mk.eta, point0C_eq_double_sum]
  · simp only [interp2_table0_real_per, if_pos hm]
    rw [Prod.mk.eta, point0R_eq_double_sum]
    simp only [flipCoef_false]

/-- Witness for C1 at a concrete configuration: one query point, unit
grid and window. -/
theorem claim1_separable_double_sum_witness :
    (((interp2_table0_complex_per (fun _ => 1) (fun _ => 0) 1 1
          (fun _ => 1) (fun _ => 0) (fun _ => 1) (fun _ => 0)
          1 1 1 1 (fun _ => 0) 1 (fun _ => 0) (fun _ => 0)).1 0,
      (interp2_table0_complex_per (fun _ => 1) (fun _ => 0) 1 1
          (fun _ => 1) (fun _ => 0) (fun _ => 1) (fun _ => 0)
          1 1 1 1 (fun _ => 0) 1 (fun _ => 0) (fun _ => 0)).2 0)
        = ∑ jj2 ∈ Finset.range (1 : ℤ).toNat,
            cmul
              (weight0 (fun _ => 1) (ncenter 1 1)
                 (((fun (_ : ℕ) => (0 : ℚ)) (1 + 0) -
                    ((koff ((fun (_ : ℕ) => (0 : ℚ)) (1 + 0)) 1 + (jj2 : ℤ) : ℤ) : ℚ)) * ((1 : ℤ) : ℚ)),
               weight0 (fun _ => 0) (ncenter 1 1)
                 (((fun (_ : ℕ) => (0 : ℚ)) (1 + 0) -
                    ((koff ((fun (_ : ℕ) => (0 : ℚ)) (1 + 0)) 1 + (jj2 : ℤ) : ℤ) : ℚ)) * ((1 : ℤ) : ℚ)))
              (∑ jj1 ∈ Finset.range (1 : ℤ).toNat,
                cmul
                  (weight0 (fun _ => 1) (ncenter 1 1)
                     (((fun (_ : ℕ) => (0 : ℚ)) 0 -
                        ((koff ((fun (_ : ℕ) => (0 : ℚ)) 0) 1 + (jj1 : ℤ) : ℤ) : ℚ)) * ((1 : ℤ) : ℚ)),
                   weight0 (fun _ => 0) (ncenter 1 1)
                     (((fun (_ : ℕ) => (0 : ℚ)) 0 -
                        ((koff ((fun (_ : ℕ) => (0 : ℚ)) 0) 1 + (jj1 : ℤ) : ℤ) : ℚ)) * ((1 : ℤ) : ℚ)))
                  ((fun (_ : ℤ) => (1 : ℚ)) (mymod (koff ((fun (_ : ℕ) => (0 : ℚ)) (1 + 0)) 1 + (jj2 : ℤ)) 1 * 1 +
                           mymod (koff ((fun (_ : ℕ) => (0 : ℚ)) 0) 1 + (jj1 : ℤ)) 1),
                   (fun (_ : ℤ) => (0 : ℚ)) (mymod (koff ((fun (_ : ℕ) => (0 : ℚ)) (1 + 0)) 1 + (jj2 : ℤ)) 1 * 1 +
                           mymod (koff ((fun (_ : ℕ) => (0 : ℚ)) 0) 1 + (jj1 : ℤ)) 1))))
    ∧ (((interp2_table0_real_per (fun _ => 1) (fun _ => 0) 1 1
          (fun _ => 1) (fun _ => 1) false false
          1 1 1 1 (fun _ => 0) 1 (fun _ => 0) (fun _ => 0)).1 0,
        (interp2_table0_real_per (fun _ => 1) (fun _ => 0) 1 1
          (fun _ => 1) (fun _ => 1) false false
          1 1 1 1 (fun _ => 0) 1 (fun _ => 0) (fun _ => 0)).2 0)
        = ∑ jj2 ∈ Finset.range (1 : ℤ).toNat,
            smulp
              (weight0 (fun _ => 1) (ncenter 1 1)
                (((fun (_ : ℕ) => (0 : ℚ)) (1 + 0) -
                   ((koff ((fun (_ : ℕ) => (0 : ℚ)) (1 + 0)) 1 + (jj2 : ℤ) : ℤ) : ℚ)) * ((1 : ℤ) : ℚ)))
              (∑ jj1 ∈ Finset.range (1 : ℤ).toNat,
                smulp
                  (weight0 (fun _ => 1) (ncenter 1 1)
                    (((fun (_ : ℕ) => (0 : ℚ)) 0 -
                       ((koff ((fun (_ : ℕ) => (0 : ℚ)) 0) 1 + (jj1 : ℤ) : ℤ) : ℚ)) * ((1 : ℤ) : ℚ)))
                  ((fun (_ : ℤ) => (1 : ℚ)) (kmodOf (koff ((fun (_ : ℕ) => (0 : ℚ)) (1 + 0)) 1 + (jj2 : ℤ)) 1 * 1 +
                           kmodOf (koff ((fun (_ : ℕ) => (0 : ℚ)) 0) 1 + (jj1 : ℤ)) 1),
                   (fun (_ : ℤ) => (0 : ℚ)) (kmodOf (koff ((fun (_ : ℕ) => (0 : ℚ)) (1 + 0)) 1 + (jj2 : ℤ)) 1 * 1 +
                           kmodOf (koff ((fun (_ : ℕ) => (0 : ℚ)) 0) 1 + (jj1 : ℤ)) 1)))) :=
  claim1_separable_double_sum (fun _ => 1) (fun _ => 0) 1 1
    (fun _ => 1) (fun _ => 0) (fun _ => 1) (fun _ => 0)
    1 1 1 1 (fun _ => 0) 1 (fun _ => 0) (fun _ => 0) 0 (by decide)

/-- C2: for every integer grid offset k and period K > 0 the periodic
indexing used by the evaluators — wrap = floor(k / (double) K) and
kmod = k - K * wrap inline in the real-table evaluators, and `mymod` in
the complex-table evaluator — yields 0 ≤ kmod < K, k = kmod + K * wrap,
and wrap = ⌊k/K⌋ (floor semantics, Int.fdiv, not truncation toward
zero), including for negative k. -/
theorem claim2_periodic_indexing (k K : ℤ) (hK : 0 < K) :
    0 ≤ kmodOf k K ∧ kmodOf k K < K ∧ k = kmodOf k K + K * wrapOf k K
      ∧ wrapOf k K = Int.fdiv k K ∧ mymod k K = kmodOf k K := by
  have he : kmodOf k K = k % K := kmodOf_eq_emod k K hK
  refine ⟨?_, ?_, ?_, ?_, rfl⟩
  · rw [he]
    exact Int.emod_nonneg k hK.ne'
  · rw [he]
    exact Int.emod_lt_of_pos k hK
  · unfold kmodOf
    ring
  · rw [wrapOf_eq_ediv k K hK, Int.fdiv_eq_ediv k hK.le]

/-- Witness for C2 at k = -5, K = 3 (a negative offset, where floor and
truncation semantics differ). -/
theorem claim2_periodic_indexing_witness :
    0 ≤ kmodOf (-5) 3 ∧ kmodOf (-5) 3 < 3
      ∧ (-5 : ℤ) = kmodOf (-5) 3 + 3 * wrapOf (-5) 3
      ∧ wrapOf (-5) 3 = Int.fdiv (-5) 3 ∧ mymod (-5) 3 = kmodOf (-5) 3 :=
  claim2_periodic_indexing (-5) 3 (by decide)

/-- C4: the 1st-order evaluator's table lookup at fractional offset p is
(1-alf)*table[n] + alf*table[n+1] with n = ⌊p⌋ and alf = p - n = fract p
satisfying 0 ≤ alf < 1, on the re-centered table (nc is the center
shift); on a linear-ramp table (value n at re-centered index n) it
reconstructs p exactly. -/
theorem claim4_linear_table_lookup (h : ℤ → ℚ) (nc : ℤ) (p : ℚ) :
    weight1 h nc p
        = (1 - Int.fract p) * h (nc + ⌊p⌋) + Int.fract p * h (nc + ⌊p⌋ + 1)
      ∧ 0 ≤ Int.fract p ∧ Int.fract p < 1
      ∧ weight1 (fun n => ((n - nc : ℤ) : ℚ)) nc p = p := by
  refine ⟨?_, Int.fract_nonneg p, Int.fract_lt_one p, ?_⟩
  · rw [Int.fract]
    rfl
  · simp only [weight1]
    push_cast
    have hf : (⌊p⌋ : ℚ) ≤ p := Int.floor_le p
    ring

/-- C5: the 0th-order table lookup returns exactly the table value at
re-centered index iround p with no blending, and iround rounds to the
nearest integer with ties away from zero: the rounded value is within
1/2 of p, and on an exact tie its magnitude exceeds that of p by 1/2. -/
theorem claim5_nearest_table_lookup (h : ℤ → ℚ) (nc : ℤ) (p : ℚ) :
    weight0 h nc p = h (nc + iround p)
      ∧ |p - ((iround p : ℤ) : ℚ)| ≤ 1/2
      ∧ (|p - ((iround p : ℤ) : ℚ)| = 1/2 →
          |((iround p : ℤ) : ℚ)| = |p| + 1/2) := by
  refine ⟨rfl, ?_, ?_⟩
  all_goals by_cases hp : 0 ≤ p
  · have hir : iround p = ⌊p + 1/2⌋ := by simp [iround, hp]
    have h1 : (⌊p + 1/2⌋ : ℚ) ≤ p + 1/2 := Int.floor_le _
    have h2 : p + 1/2 < ⌊p + 1/2⌋ + 1 := Int.lt_floor_add_one _
    rw [hir, abs_le]
    constructor <;> linarith
  · have hir : iround p = -⌊-p + 1/2⌋ := by simp [iround, hp]
    have h1 : (⌊-p + 1/2⌋ : ℚ) ≤ -p + 1/2 := Int.floor_le _
    have h2 : -p + 1/2 < ⌊-p + 1/2⌋ + 1 := Int.lt_floor_add_one _
    rw [hir, abs_le]
    push_cast
    constructor <;> linarith
  · intro he
    have hir : iround p = ⌊p + 1/2⌋ := by simp [iround, hp]
    have h1 : (⌊p + 1/2⌋ : ℚ) ≤ p + 1/2 := Int.floor_le _
    have h2 : p + 1/2 < ⌊p + 1/2⌋ + 1 := Int.lt_floor_add_one _
    rw [hir] at he ⊢
    have hcase := (abs_eq (by norm_num : (0:ℚ) ≤ 1/2)).mp he
    have heq : p - (⌊p + 1/2⌋ : ℚ) = -(1/2) := by
      rcases hcase with hc | hc
      · exfalso
        linarith
      · exact hc
    rw [abs_of_nonneg (by linarith : (0:ℚ) ≤ (⌊p + 1/2⌋ : ℚ)),
        abs_of_nonneg hp]
    linarith
  · intro he
    have hir : iround p = -⌊-p + 1/2⌋ := by simp [iround, hp]
    have h1 : (⌊-p + 1/2⌋ : ℚ) ≤ -p + 1/2 := Int.floor_le _
    have h2 : -p + 1/2 < ⌊-p + 1/2⌋ + 1 := Int.lt_floor_add_one _
    rw [hir] at he ⊢
    push_cast at he ⊢
    have hcase := (abs_eq (by norm_num : (0:ℚ) ≤ 1/2)).mp he
    have heq : p + (⌊-p + 1/2⌋ : ℚ) = 1/2 := by
      rcases hcase with hc | hc
      · linarith
      · exfalso
        linarith
    push_neg at hp
    rw [abs_of_nonpos (by linarith : -(⌊-p + 1/2⌋ : ℚ) ≤ 0),
        abs_of_nonpos hp.le]
    linarith

/-- A witness instance of C5 at p = 3/2 on an identity table. -/
theorem claim5_nearest_table_lookup_witness :
    weight0 (fun n => (n : ℚ)) 0 (3/2)
        = (fun (n : ℤ) => (n : ℚ)) ((0 : ℤ) + iround (3/2))
      ∧ |(3/2 : ℚ) - ((iround (3/2) : ℤ) : ℚ)| ≤ 1/2
      ∧ (|(3/2 : ℚ) - ((iround (3/2) : ℤ) : ℚ)| = 1/2 →
          |((iround (3/2) : ℤ) : ℚ)| = |(3/2 : ℚ)| + 1/2) :=
  claim5_nearest_table_lookup (fun n => (n : ℚ)) 0 (3/2)

/-- C7: in the real-table 0th- and 1st-order evaluators (compiled with
the Provide_flip feature flag) the axis weight is negated exactly when
that axis's flip flag is set and its period-wrap count is odd — first
conjunct: the flip rule itself; second and third conjuncts: both real
evaluators apply the rule, via flipCoef, to each axis weight with that
axis's wrap count.  The complex-coefficient 0th-order evaluator exposes
no flip parameters (its Lean embedding `point0C`, like the C signature
at lines 26-42, has none) and its terms use the raw table weights with
no wrap-parity negation — fourth conjunct. -/
theorem claim7_sign_flip (f : Bool) (w : ℤ) (c : ℚ) (r_ck i_ck : ℤ → ℚ)
    (K1 K2 : ℤ) (r_h1 i_h1 r_h2 i_h2 : ℤ → ℚ) (flip1 flip2 : Bool)
    (J1 J2 L1 L2 : ℤ) (t1 t2 : ℚ) :
    flipCoef f w c = (if f = true ∧ Odd w then -c else c)
    ∧ point0R r_ck i_ck K1 K2 r_h1 r_h2 flip1 flip2 J1 J2 L1 L2 t1 t2
        = ∑ jj2 ∈ Finset.range J2.toNat,
            smulp
              (flipCoef flip2 (wrapOf (koff t2 J2 + (jj2 : ℤ)) K2)
                (weight0 r_h2 (ncenter J2 L2)
                  ((t2 - ((koff t2 J2 + (jj2 : ℤ) : ℤ) : ℚ)) * (L2 : ℚ))))
              (∑ jj1 ∈ Finset.range J1.toNat,
                smulp
                  (flipCoef flip1 (wrapOf (koff t1 J1 + (jj1 : ℤ)) K1)
                    (weight0 r_h1 (ncenter J1 L1)
                      ((t1 - ((koff t1 J1 + (jj1 : ℤ) : ℤ) : ℚ)) * (L1 : ℚ))))
                  (r_ck (kmodOf (koff t2 J2 + (jj2 : ℤ)) K2 * K1 +
                           kmodOf (koff t1 J1 + (jj1 : ℤ)) K1),
                   i_ck (kmodOf (koff t2 J2 + (jj2 : ℤ)) K2 * K1 +
                           kmodOf (koff t1 J1 + (jj1 : ℤ)) K1)))
    ∧ point1R r_ck i_ck K1 K2 r_h1 r_h2 flip1 flip2 J1 J2 L1 L2 t1 t2
        = ∑ jj2 ∈ Finset.range J2.toNat,
            smulp
              (flipCoef flip2 (wrapOf (koff t2 J2 + (jj2 : ℤ)) K2)
                (weight1 r_h2 (ncenter J2 L2)
                  ((t2 - ((koff t2 J2 + (jj2 : ℤ) : ℤ) : ℚ)) * (L2 : ℚ))))
              (∑ jj1 ∈ Finset.range J1.toNat,
                smulp
                  (flipCoef flip1 (wrapOf (koff t1 J1 + (jj1 : ℤ)) K1)
                    (weight1 r_h1 (ncenter J1 L1)
                      ((t1 - ((koff t1 J1 + (jj1 : ℤ) : ℤ) : ℚ)) * (L1 : ℚ))))
                  (r_ck (kmodOf (koff t2 J2 + (jj2 : ℤ)) K2 * K1 +
                           kmodOf (koff t1 J1 + (jj1 : ℤ)) K1),
                   i_ck (kmodOf (koff t2 J2 + (jj2 : ℤ)) K2 * K1 +
                           kmodOf (koff t1 J1 + (jj1 : ℤ)) K1)))
    ∧ point0C r_ck i_ck K1 K2 r_h1 i_h1 r_h2 i_h2 J1 J2 L1 L2 t1 t2
        = ∑ jj2 ∈ Finset.range J2.toNat,
            cmul
              (weight0 r_h2 (ncenter J2 L2)
                 ((t2 - ((koff t2 J2 + (jj2 : ℤ) : ℤ) : ℚ)) * (L2 : ℚ)),
               weight0 i_h2 (ncenter J2 L2)
                 ((t2 - ((koff t2 J2 + (jj2 : ℤ) : ℤ) : ℚ)) * (L2 : ℚ)))
              (∑ jj1 ∈ Finset.range J1.toNat,
                cmul
                  (weight0 r_h1 (ncenter J1 L1)
                     ((t1 - ((koff t1 J1 + (jj1 : ℤ) : ℤ) : ℚ)) * (L1 : ℚ)),
                   weight0 i_h1 (ncenter J1 L1)
                     ((t1 - ((koff t1 J1 + (jj1 : ℤ) : ℤ) : ℚ)) * (L1 : ℚ)))
                  (r_ck (mymod (koff t2 J2 + (jj2 : ℤ)) K2 * K1 +
                           mymod (koff t1 J1 + (jj1 : ℤ)) K1),
                   i_ck (mymod (koff t2 J2 + (jj2 : ℤ)) K2 * K1 +
                           mymod (koff t1 J1 + (jj1 : ℤ)) K1))) := by
  refine ⟨?_, point0R_eq_double_sum r_ck i_ck K1 K2 r_h1 r_h2 flip1 flip2
      J1 J2 L1 L2 t1 t2,
    point1R_eq_double_sum r_ck i_ck K1 K2 r_h1 r_h2 flip1 flip2
      J1 J2 L1 L2 t1 t2,
    point0C_eq_double_sum r_ck i_ck K1 K2 r_h1 i_h1 r_h2 i_h2
      J1 J2 L1 L2 t1 t2⟩
  cases f with
  | false => simp [flipCoef]
  | true =>
      rcases Int.emod_two_eq_zero_or_one w with hw | hw
      · simp [flipCoef, Int.odd_iff, hw]
      · simp [flipCoef, Int.odd_iff, hw]

/-- A complex weight with zero imaginary part acts as a real scalar. -/
theorem cmul_real (a : ℚ) (v : ℚ × ℚ) : cmul (a, 0) v = smulp a v := by
  simp [cmul, smulp]

/-- The complex per-point body with identically zero imaginary tables
coincides with the real 0th-order per-point body with flips off. -/
theorem point0C_zero_imag (r_ck i_ck : ℤ → ℚ) (K1 K2 : ℤ)
    (r_h1 r_h2 : ℤ → ℚ) (J1 J2 L1 L2 : ℤ) (t1 t2 : ℚ) :
    point0C r_ck i_ck K1 K2 r_h1 (fun _ => 0) r_h2 (fun _ => 0)
        J1 J2 L1 L2 t1 t2
      = point0R r_ck i_ck K1 K2 r_h1 r_h2 false false J1 J2 L1 L2 t1 t2 := by
  rw [point0C_eq_double_sum, point0R_eq_double_sum]
  refine Finset.sum_congr rfl ?_
  intro jj2 _
  have hw2 : weight0 (fun _ => (0 : ℚ)) (ncenter J2 L2)
      ((t2 - ((koff t2 J2 + (jj2 : ℤ) : ℤ) : ℚ)) * (L2 : ℚ)) = 0 := rfl
  rw [hw2, cmul_real, flipCoef_false]
  refine congrArg _ ?_
  refine Finset.sum_congr rfl ?_
  intro jj1 _
  have hw1 : weight0 (fun _ => (0 : ℚ)) (ncenter J1 L1)
      ((t1 - ((koff t1 J1 + (jj1 : ℤ) : ℤ) : ℚ)) * (L1 : ℚ)) = 0 := rfl
  rw [hw1, cmul_real, flipCoef_false]
  rfl

/-- C10: on any finite inputs, the complex-table 0th-order evaluator run
with imaginary table parts identically zero (sequential single-worker
semantics) produces exactly the outputs of the real-table 0th-order
evaluator with sign flips disabled, for the same coefficients, real
table parts, geometry and query points. -/
theorem claim10_real_refines_complex (r_ck i_ck : ℤ → ℚ) (K1 K2 : ℤ)
    (r_h1 r_h2 : ℤ → ℚ) (J1 J2 L1 L2 : ℤ) (p_tm : ℕ → ℚ) (M : ℕ)
    (r_fm i_fm : ℕ → ℚ) :
    interp2_table0_complex_per r_ck i_ck K1 K2 r_h1 (fun _ => 0) r_h2
        (fun _ => 0) J1 J2 L1 L2 p_tm M r_fm i_fm
      = interp2_table0_real_per r_ck i_ck K1 K2 r_h1 r_h2 false false
        J1 J2 L1 L2 p_tm M r_fm i_fm := by
  unfold interp2_table0_complex_per interp2_table0_real_per
  refine Prod.ext ?_ ?_ <;>
    · funext m
      by_cases hm : m < M <;>
        simp only [hm, if_pos, if_neg, if_true, if_false,
          point0C_zero_imag]

/-- C6 (amended): with M = 0 all three evaluators return the output
buffers exactly as supplied (no slot is written) and no grid coefficient
is accessed; the evaluation is total, so no failure occurs.  (The K = 0
half of the original claim is refuted by `claim6_counterexample`.) -/
theorem claim6_empty_query_set (r_ck i_ck : ℤ → ℚ) (K1 K2 : ℤ)
    (r_h1 i_h1 r_h2 i_h2 : ℤ → ℚ) (flip1 flip2 : Bool) (J1 J2 L1 L2 : ℤ)
    (p_tm : ℕ → ℚ) (M : ℕ) (r_fm i_fm : ℕ → ℚ) (hM : M = 0) :
    interp2_table0_complex_per r_ck i_ck K1 K2 r_h1 i_h1 r_h2 i_h2
        J1 J2 L1 L2 p_tm M r_fm i_fm = (r_fm, i_fm)
    ∧ interp2_table0_real_per r_ck i_ck K1 K2 r_h1 r_h2 flip1 flip2
        J1 J2 L1 L2 p_tm M r_fm i_fm = (r_fm, i_fm)
    ∧ interp2_table1_real_per r_ck i_ck K1 K2 r_h1 r_h2 flip1 flip2
        J1 J2 L1 L2 p_tm M r_fm i_fm = (r_fm, i_fm)
    ∧ accessedR K1 K2 J1 J2 p_tm M = [] := by
  subst hM
  refine ⟨?_, ?_, ?_, rfl⟩ <;>
    · refine Prod.ext ?_ ?_ <;>
        · funext m
          simp [interp2_table0_complex_per, interp2_table0_real_per,
            interp2_table1_real_per]

/-- Witness for C6 at a concrete configuration with M = 0. -/
theorem claim6_empty_query_set_witness :
    interp2_table0_complex_per (fun _ => 0) (fun _ => 0) 1 1 (fun _ => 0)
        (fun _ => 0) (fun _ => 0) (fun _ => 0) 1 1 1 1 (fun _ => 0) 0
        (fun _ => 3) (fun _ => 7)
      = ((fun _ => 3), (fun _ => 7))
    ∧ interp2_table0_real_per (fun _ => 0) (fun _ => 0) 1 1 (fun _ => 0)
        (fun _ => 0) false false 1 1 1 1 (fun _ => 0) 0
        (fun _ => 3) (fun _ => 7)
      = ((fun _ => 3), (fun _ => 7))
    ∧ interp2_table1_real_per (fun _ => 0) (fun _ => 0) 1 1 (fun _ => 0)
        (fun _ => 0) false false 1 1 1 1 (fun _ => 0) 0
        (fun _ => 3) (fun _ => 7)
      = ((fun _ => 3), (fun _ => 7))
    ∧ accessedR 1 1 1 1 (fun _ => 0) 0 = [] :=
  claim6_empty_query_set (fun _ => 0) (fun _ => 0) 1 1 (fun _ => 0)
    (fun _ => 0) (fun _ => 0) (fun _ => 0) false false 1 1 1 1
    (fun _ => 0) 0 (fun _ => 3) (fun _ => 7) rfl

/-- C6 counterexample: with grid extents K1 = K2 = 0 (so the coefficient
array has 0*0 = 0 entries), M = 1 query point at the origin and J1 = J2
= L1 = L2 = 1, the evaluation reads the grid at linear index 0, which is
not a valid index into a zero-length array: the K = 0 case does perform
an out-of-range grid access, contradicting the claim that it completes
with no out-of-range access.  (The wrap value itself comes from a
division by K = 0, undefined behaviour in C; the index computed below is
0 regardless of that value, since it is multiplied by K1 = 0 and offset
by k - 0*wrap = k.) -/
theorem claim6_counterexample :
    accessedR 0 0 1 1 (fun _ => 0) 1 = [0]
      ∧ ¬ (∀ kk ∈ accessedR 0 0 1 1 (fun _ => 0) 1,
            0 ≤ kk ∧ kk < 0 * 0) := by
  have h0 : accessedR 0 0 1 1 (fun _ => 0) 1 = [0] := by
    have hk : koff 0 1 = 0 := by
      unfold koff
      norm_num [Rat.floor_def]
    simp [accessedR, kmodOf, hk]
    decide
  refine ⟨h0, ?_⟩
  intro hall
  have h1 := hall 0 (by rw [h0]; exact List.mem_singleton.mpr rfl)
  have h2 := h1.2
  norm_num at h2

/-- Periodic replication of the stored grid coefficients, following the
spec's words in section 8: the replicated grid's value at unwrapped 2D
position (k1, k2) is the stored coefficient at (k1 mod K1, k2 mod K2),
linearized row-major. -/
def replicated (ck : ℤ → ℚ) (K1 K2 : ℤ) : ℤ → ℤ → ℚ :=
  fun k1 k2 => ck ((k2 % K2) * K1 + (k1 % K1))

/-- Reference evaluator following the spec's words in section 8: the
same separable window sum as the real 0th-order evaluator with flips
off, but indexing a 2D coefficient function directly at the unwrapped
window offsets, with no periodic index computation. -/
def point0R_noWrap (c2r c2i : ℤ → ℤ → ℚ) (r_h1 r_h2 : ℤ → ℚ)
    (J1 J2 L1 L2 : ℤ) (t1 t2 : ℚ) : ℚ × ℚ :=
  ∑ jj2 ∈ Finset.range J2.toNat,
    smulp
      (weight0 r_h2 (ncenter J2 L2)
        ((t2 - ((koff t2 J2 + (jj2 : ℤ) : ℤ) : ℚ)) * (L2 : ℚ)))
      (∑ jj1 ∈ Finset.range J1.toNat,
        smulp
          (weight0 r_h1 (ncenter J1 L1)
            ((t1 - ((koff t1 J1 + (jj1 : ℤ) : ℤ) : ℚ)) * (L1 : ℚ)))
          (c2r (koff t1 J1 + (jj1 : ℤ)) (koff t2 J2 + (jj2 : ℤ)),
           c2i (koff t1 J1 + (jj1 : ℤ)) (koff t2 J2 + (jj2 : ℤ))))

/-- Reference evaluator following the spec's words in section 8, for the
complex-table 0th-order variant (which has no flip option): the same
separable window sum with complex multiplies as `point0C`, but indexing
a 2D coefficient function directly at the unwrapped window offsets, with
no periodic index computation. -/
def point0C_noWrap (c2r c2i : ℤ → ℤ → ℚ) (r_h1 i_h1 r_h2 i_h2 : ℤ → ℚ)
    (J1 J2 L1 L2 : ℤ) (t1 t2 : ℚ) : ℚ × ℚ :=
  ∑ jj2 ∈ Finset.range J2.toNat,
    cmul
      (weight0 r_h2 (ncenter J2 L2)
        ((t2 - ((koff t2 J2 + (jj2 : ℤ) : ℤ) : ℚ)) * (L2 : ℚ)),
       weight0 i_h2 (ncenter J2 L2)
        ((t2 - ((koff t2 J2 + (jj2 : ℤ) : ℤ) : ℚ)) * (L2 : ℚ)))
      (∑ jj1 ∈ Finset.range J1.toNat,
        cmul
          (weight0 r_h1 (ncenter J1 L1)
            ((t1 - ((koff t1 J1 + (jj1 : ℤ) : ℤ) : ℚ)) * (L1 : ℚ)),
           weight0 i_h1 (ncenter J1 L1)
            ((t1 - ((koff t1 J1 + (jj1 : ℤ) : ℤ) : ℚ)) * (L1 : ℚ)))
          (c2r (koff t1 J1 + (jj1 : ℤ)) (koff t2 J2 + (jj2 : ℤ)),
           c2i (koff t1 J1 + (jj1 : ℤ)) (koff t2 J2 + (jj2 : ℤ))))

/-- Shifting the query coordinate by an integer shifts the window start
by the same integer. -/
theorem koff_add_int (t : ℚ) (J K : ℤ) :
    koff (t + (K : ℚ)) J = koff t J + K := by
  unfold koff
  have h : t + (K : ℚ) - (J : ℚ) / 2 = t - (J : ℚ) / 2 + (K : ℚ) := by
    ring
  rw [h, Int.floor_add_int]
  ring

/-- The periodic index is invariant under a shift by one full period. -/
theorem kmodOf_add_period (k K : ℤ) (hK : 0 < K) :
    kmodOf (k + K) K = kmodOf k K := by
  rw [kmodOf_eq_emod _ _ hK, kmodOf_eq_emod _ _ hK]
  have h : k + K = k + K * 1 := by
    ring
  rw [h, Int.add_mul_emod_self_left]

/-- The complex evaluator's periodic index is likewise invariant under a
shift by one full period. -/
theorem mymod_add_period (k K : ℤ) (hK : 0 < K) :
    mymod (k + K) K = mymod k K := by
  rw [mymod_eq_kmodOf, mymod_eq_kmodOf, kmodOf_add_period _ _ hK]

/-- C8: periodic wraparound is exact, with sign flips disabled (real
0th-order evaluator) or absent (complex 0th-order evaluator, which has
no flip option), for positive grid extents.  Conjuncts 1 and 4: each
evaluator's per-point value equals the value obtained by explicitly
replicating the grid coefficients periodically and indexing without any
wraparound.  Conjuncts 2-3 and 5-6: shifting a query coordinate by one
full period (K1 on axis 1, K2 on axis 2) leaves each evaluator's value
unchanged. -/
theorem claim8_periodic_wraparound (r_ck i_ck : ℤ → ℚ) (K1 K2 : ℤ)
    (r_h1 i_h1 r_h2 i_h2 : ℤ → ℚ) (J1 J2 L1 L2 : ℤ) (t1 t2 : ℚ)
    (hK1 : 0 < K1) (hK2 : 0 < K2) :
    point0R r_ck i_ck K1 K2 r_h1 r_h2 false false J1 J2 L1 L2 t1 t2
        = point0R_noWrap (replicated r_ck K1 K2) (replicated i_ck K1 K2)
            r_h1 r_h2 J1 J2 L1 L2 t1 t2
    ∧ point0R r_ck i_ck K1 K2 r_h1 r_h2 false false J1 J2 L1 L2
          (t1 + (K1 : ℚ)) t2
        = point0R r_ck i_ck K1 K2 r_h1 r_h2 false false J1 J2 L1 L2 t1 t2
    ∧ point0R r_ck i_ck K1 K2 r_h1 r_h2 false false J1 J2 L1 L2
          t1 (t2 + (K2 : ℚ))
        = point0R r_ck i_ck K1 K2 r_h1 r_h2 false false J1 J2 L1 L2 t1 t2
    ∧ point0C r_ck i_ck K1 K2 r_h1 i_h1 r_h2 i_h2 J1 J2 L1 L2 t1 t2
        = point0C_noWrap (replicated r_ck K1 K2) (replicated i_ck K1 K2)
            r_h1 i_h1 r_h2 i_h2 J1 J2 L1 L2 t1 t2
    ∧ point0C r_ck i_ck K1 K2 r_h1 i_h1 r_h2 i_h2 J1 J2 L1 L2
          (t1 + (K1 : ℚ)) t2
        = point0C r_ck i_ck K1 K2 r_h1 i_h1 r_h2 i_h2 J1 J2 L1 L2 t1 t2
    ∧ point0C r_ck i_ck K1 K2 r_h1 i_h1 r_h2 i_h2 J1 J2 L1 L2
          t1 (t2 + (K2 : ℚ))
        = point0C r_ck i_ck K1 K2 r_h1 i_h1 r_h2 i_h2 J1 J2 L1 L2 t1 t2 := by
  refine ⟨?_, ?_, ?_, ?_, ?_, ?_⟩
  · rw [point0R_eq_double_sum]
    unfold point0R_noWrap
    simp only [flipCoef_false, replicated,
      kmodOf_eq_emod _ _ hK1, kmodOf_eq_emod _ _ hK2]
  · rw [point0R_eq_double_sum, point0R_eq_double_sum]
    simp only [flipCoef_false]
    refine Finset.sum_congr rfl ?_
    intro jj2 _
    refine congrArg₂ smulp rfl ?_
    refine Finset.sum_congr rfl ?_
    intro jj1 _
    rw [koff_add_int]
    have hp : t1 + (K1 : ℚ) - ((koff t1 J1 + K1 + (jj1 : ℤ) : ℤ) : ℚ)
        = t1 - ((koff t1 J1 + (jj1 : ℤ) : ℤ) : ℚ) := by
      push_cast
      ring
    rw [hp]
    have hi : koff t1 J1 + K1 + (jj1 : ℤ) = koff t1 J1 + (jj1 : ℤ) + K1 := by
      ring
    rw [hi, kmodOf_add_period _ _ hK1]
  · rw [point0R_eq_double_sum, point0R_eq_double_sum]
    simp only [flipCoef_false]
    refine Finset.sum_congr rfl ?_
    intro jj2 _
    rw [koff_add_int]
    have hp : t2 + (K2 : ℚ) - ((koff t2 J2 + K2 + (jj2 : ℤ) : ℤ) : ℚ)
        = t2 - ((koff t2 J2 + (jj2 : ℤ) : ℤ) : ℚ) := by
      push_cast
      ring
    rw [hp]
    have hi : koff t2 J2 + K2 + (jj2 : ℤ) = koff t2 J2 + (jj2 : ℤ) + K2 := by
      ring
    rw [hi, kmodOf_add_period _ _ hK2]
  · rw [point0C_eq_double_sum]
    unfold point0C_noWrap
    simp only [replicated, mymod_eq_kmodOf, kmodOf_eq_emod _ _ hK1,
      kmodOf_eq_emod _ _ hK2]
  · rw [point0C_eq_double_sum, point0C_eq_double_sum]
    refine Finset.sum_congr rfl ?_
    intro jj2 _
    refine congrArg₂ cmul rfl ?_
    refine Finset.sum_congr rfl ?_
    intro jj1 _
    rw [koff_add_int]
    have hp : t1 + (K1 : ℚ) - ((koff t1 J1 + K1 + (jj1 : ℤ) : ℤ) : ℚ)
        = t1 - ((koff t1 J1 + (jj1 : ℤ) : ℤ) : ℚ) := by
      push_cast
      ring
    rw [hp]
    have hi : koff t1 J1 + K1 + (jj1 : ℤ) = koff t1 J1 + (jj1 : ℤ) + K1 := by
      ring
    rw [hi, mymod_add_period _ _ hK1]
  · rw [point0C_eq_double_sum, point0C_eq_double_sum]
    refine Finset.sum_congr rfl ?_
    intro jj2 _
    rw [koff_add_int]
    have hp : t2 + (K2 : ℚ) - ((koff t2 J2 + K2 + (jj2 : ℤ) : ℤ) : ℚ)
        = t2 - ((koff t2 J2 + (jj2 : ℤ) : ℤ) : ℚ) := by
      push_cast
      ring
    rw [hp]
    have hi : koff t2 J2 + K2 + (jj2 : ℤ) = koff t2 J2 + (jj2 : ℤ) + K2 := by
      ring
    rw [hi, mymod_add_period _ _ hK2]

/-- Witness for C8 at a concrete configuration. -/
theorem claim8_periodic_wraparound_witness :
    point0R (fun _ => 1) (fun _ => 0) 1 1 (fun _ => 1) (fun _ => 1)
        false false 1 1 1 1 0 0
      = point0R_noWrap (replicated (fun _ => 1) 1 1)
          (replicated (fun _ => 0) 1 1) (fun _ => 1) (fun _ => 1) 1 1 1 1 0 0
    ∧ point0R (fun _ => 1) (fun _ => 0) 1 1 (fun _ => 1) (fun _ => 1)
        false false 1 1 1 1 (0 + ((1 : ℤ) : ℚ)) 0
      = point0R (fun _ => 1) (fun _ => 0) 1 1 (fun _ => 1) (fun _ => 1)
        false false 1 1 1 1 0 0
    ∧ point0R (fun _ => 1) (fun _ => 0) 1 1 (fun _ => 1) (fun _ => 1)
        false false 1 1 1 1 0 (0 + ((1 : ℤ) : ℚ))
      = point0R (fun _ => 1) (fun _ => 0) 1 1 (fun _ => 1) (fun _ => 1)
        false false 1 1 1 1 0 0
    ∧ point0C (fun _ => 1) (fun _ => 0) 1 1 (fun _ => 1) (fun _ => 0)
        (fun _ => 1) (fun _ => 0) 1 1 1 1 0 0
      = point0C_noWrap (replicated (fun _ => 1) 1 1)
          (replicated (fun _ => 0) 1 1) (fun _ => 1) (fun _ => 0)
          (fun _ => 1) (fun _ => 0) 1 1 1 1 0 0
    ∧ point0C (fun _ => 1) (fun _ => 0) 1 1 (fun _ => 1) (fun _ => 0)
        (fun _ => 1) (fun _ => 0) 1 1 1 1 (0 + ((1 : ℤ) : ℚ)) 0
      = point0C (fun _ => 1) (fun _ => 0) 1 1 (fun _ => 1) (fun _ => 0)
        (fun _ => 1) (fun _ => 0) 1 1 1 1 0 0
    ∧ point0C (fun _ => 1) (fun _ => 0) 1 1 (fun _ => 1) (fun _ => 0)
        (fun _ => 1) (fun _ => 0) 1 1 1 1 0 (0 + ((1 : ℤ) : ℚ))
      = point0C (fun _ => 1) (fun _ => 0) 1 1 (fun _ => 1) (fun _ => 0)
        (fun _ => 1) (fun _ => 0) 1 1 1 1 0 0 :=
  claim8_periodic_wraparound (fun _ => 1) (fun _ => 0) 1 1
    (fun _ => 1) (fun _ => 0) (fun _ => 1) (fun _ => 0) 1 1 1 1 0 0
    (by decide) (by decide)

/-- C3 exhibit: the parallel complex/0th-order evaluator as written does
NOT zero its malloc'ed per-worker private buffers (lines 69-70), yet the
merge (lines 124-130) adds every worker's full buffer.  First conjunct:
had every private buffer been zero-initialized (as the claim states),
the merged result would equal the sequential single-worker result for
every worker count, assignment, and input.  Second conjunct: with two
workers, worker 0 assigned the single query point, and a leftover
residue of 5 at slot 0 of worker 1's uninitialized buffer, the merged
real output at slot 0 exceeds the correct sequential value by exactly
that residue — the uninitialized memory leaks into the output. -/
theorem claim3_uninitialized_private_buffers (r_ck i_ck : ℤ → ℚ)
    (K1 K2 : ℤ) (r_h1 i_h1 r_h2 i_h2 : ℤ → ℚ) (J1 J2 L1 L2 : ℤ)
    (p_tm : ℕ → ℚ) (r_fm i_fm : ℕ → ℚ) :
    (∀ (W : ℕ) (assign : ℕ → Fin W) (M : ℕ),
      interp2_table0_complex_per_omp W assign (fun _ _ => 0) (fun _ _ => 0)
          r_ck i_ck K1 K2 r_h1 i_h1 r_h2 i_h2 J1 J2 L1 L2 p_tm M r_fm i_fm
        = interp2_table0_complex_per r_ck i_ck K1 K2 r_h1 i_h1 r_h2 i_h2
            J1 J2 L1 L2 p_tm M r_fm i_fm)
    ∧ (interp2_table0_complex_per_omp 2 (fun _ => 0)
          (fun w _ => if w = 1 then 5 else 0) (fun _ _ => 0)
          r_ck i_ck K1 K2 r_h1 i_h1 r_h2 i_h2 J1 J2 L1 L2 p_tm 1
          r_fm i_fm).1 0
        = (interp2_table0_complex_per r_ck i_ck K1 K2 r_h1 i_h1 r_h2 i_h2
            J1 J2 L1 L2 p_tm 1 r_fm i_fm).1 0 + 5 := by
  constructor
  · intro W assign M
    unfold interp2_table0_complex_per_omp interp2_table0_complex_per
    refine Prod.ext ?_ ?_ <;>
      · funext m
        by_cases hm : m < M <;> simp [hm, Finset.sum_ite_eq]
  · unfold interp2_table0_complex_per_omp interp2_table0_complex_per
    simp [Fin.sum_univ_two]

/-- Concrete evaluation: delta grid (coefficient 1 at linear index 0),
delta tables [0,1,0] (value 1 at raw index 1, i.e. at re-centered offset
0), K1 = K2 = 4, J1 = J2 = 2, L1 = L2 = 1, query point (0, 0). -/
theorem point0R_delta_origin :
    point0R (fun kk => if kk = 0 then 1 else 0) (fun _ => 0) 4 4
      (fun n => if n = 1 then 1 else 0) (fun n => if n = 1 then 1 else 0)
      false false 2 2 1 1 0 0 = (1, 0) := by
  unfold point0R term0Rout sum1R term0R
  norm_num [show (2:ℤ).toNat = 2 from rfl, List.range_succ, List.range_zero,
    List.foldl_append, List.foldl_cons, List.foldl_nil, weight0, flipCoef,
    koff, kmodOf, wrapOf, ncenter, iround, Rat.floor_def]

/-- Concrete evaluation: same configuration, query point (4, 0), one
full period along axis 1. -/
theorem point0R_delta_shift :
    point0R (fun kk => if kk = 0 then 1 else 0) (fun _ => 0) 4 4
      (fun n => if n = 1 then 1 else 0) (fun n => if n = 1 then 1 else 0)
      false false 2 2 1 1 4 0 = (1, 0) := by
  unfold point0R term0Rout sum1R term0R
  norm_num [show (2:ℤ).toNat = 2 from rfl, List.range_succ, List.range_zero,
    List.foldl_append, List.foldl_cons, List.foldl_nil, weight0, flipCoef,
    koff, kmodOf, wrapOf, ncenter, iround, Rat.floor_def]

/-- C9: end-to-end case for the real-table 0th-order evaluator with
K1 = K2 = 4, J1 = J2 = 2, L1 = L2 = 1, real tables [0,1,0], grid
coefficient 1 at (k1,k2) = (0,0) and 0 elsewhere, zero imaginary parts:
the query point (0,0) yields output (1, 0), and the query point (4,0) —
one full period away along axis 1 — yields the identical output. -/
theorem claim9_end_to_end :
    ((interp2_table0_real_per (fun kk => if kk = 0 then 1 else 0)
        (fun _ => 0) 4 4 (fun n => if n = 1 then 1 else 0)
        (fun n => if n = 1 then 1 else 0) false false 2 2 1 1
        (fun _ => 0) 1 (fun _ => 0) (fun _ => 0)).1 0 = 1
      ∧ (interp2_table0_real_per (fun kk => if kk = 0 then 1 else 0)
        (fun _ => 0) 4 4 (fun n => if n = 1 then 1 else 0)
        (fun n => if n = 1 then 1 else 0) false false 2 2 1 1
        (fun _ => 0) 1 (fun _ => 0) (fun _ => 0)).2 0 = 0)
    ∧ ((interp2_table0_real_per (fun kk => if kk = 0 then 1 else 0)
        (fun _ => 0) 4 4 (fun n => if n = 1 then 1 else 0)
        (fun n => if n = 1 then 1 else 0) false false 2 2 1 1
        (fun i => if i = 0 then 4 else 0) 1 (fun _ => 0) (fun _ => 0)).1 0
        = (interp2_table0_real_per (fun kk => if kk = 0 then 1 else 0)
        (fun _ => 0) 4 4 (fun n => if n = 1 then 1 else 0)
        (fun n => if n = 1 then 1 else 0) false false 2 2 1 1
        (fun _ => 0) 1 (fun _ => 0) (fun _ => 0)).1 0
      ∧ (interp2_table0_real_per (fun kk => if kk = 0 then 1 else 0)
        (fun _ => 0) 4 4 (fun n => if n = 1 then 1 else 0)
        (fun n => if n = 1 then 1 else 0) false false 2 2 1 1
        (fun i => if i = 0 then 4 else 0) 1 (fun _ => 0) (fun _ => 0)).2 0
        = (interp2_table0_real_per (fun kk => if kk = 0 then 1 else 0)
        (fun _ => 0) 4 4 (fun n => if n = 1 then 1 else 0)
        (fun n => if n = 1 then 1 else 0) false false 2 2 1 1
        (fun _ => 0) 1 (fun _ => 0) (fun _ => 0)).2 0) := by
  have h1 := point0R_delta_origin
  have h2 := point0R_delta_shift
  refine ⟨⟨?_, ?_⟩, ?_, ?_⟩ <;>
    · simp only [interp2_table0_real_per]
      norm_num [h1, h2]

end Interp2Table
